import Mathlib

/-!
Shallow embedding of the screen-timer agent (policy state machine, result
parser, capture scheduler, frame-processor sampling gate, and stream
watchdog) together with proofs about the behaviour its specification
describes.  Times and JSON numbers are modelled as exact rationals; the
IEEE-754 rounding of Python floats is outside the model and never changes
the verdict of any comparison appearing below.
-/

namespace ScreenTimer

/-- JSON values as produced by a strict `json.loads` parse.  The
non-standard `NaN`/`Infinity` constants accepted by the Python scanner are
outside the model (no classification text in scope uses them). -/
inductive Json where
  | null
  | bool (b : Bool)
  | num (q : ℚ)
  | str (s : String)
  | arr (elems : List Json)
  | obj (fields : List (String × Json))

/-- Whether a JSON value is an object. -/
def Json.isObj : Json → Bool
  | .obj _ => true
  | _ => false

/-- JSON insignificant whitespace (space, tab, newline, carriage return). -/
def isJsonWs (c : Char) : Bool :=
  c == ' ' || c == '\t' || c == '\n' || c == '\r'

/-- Drop leading JSON whitespace. -/
def skipWs : List Char → List Char
  | [] => []
  | c :: cs => if isJsonWs c then skipWs cs else c :: cs

/-- Split off a maximal run of leading decimal digits. -/
def takeDigits : List Char → List Char × List Char
  | [] => ([], [])
  | c :: cs =>
      if c.isDigit then
        let r := takeDigits cs
        (c :: r.1, r.2)
      else ([], c :: cs)

/-- Numeric value of a digit run. -/
def digitsVal (ds : List Char) : Nat :=
  ds.foldl (fun a c => a * 10 + (c.toNat - 48)) 0

/-- Value of one hexadecimal digit, if any. -/
def hexDigitVal (c : Char) : Option Nat :=
  if c.isDigit then some (c.toNat - 48)
  else if 'a' ≤ c ∧ c ≤ 'f' then some (c.toNat - 87)
  else if 'A' ≤ c ∧ c ≤ 'F' then some (c.toNat - 55)
  else none

/-- Body of a JSON string after the opening quote, in strict mode:
unescaped control characters are rejected, the standard escapes and
`\uXXXX` are accepted.  Combining a `\uXXXX` surrogate pair into one code
point is not modelled (no claim exercises it); a lone surrogate falls back
to `Char.ofNat`'s default. -/
def parseJStringAux : Nat → List Char → List Char → Option (String × List Char)
  | 0, _, _ => none
  | fuel + 1, acc, input =>
    match input with
    | [] => none
    | '"' :: rest => some (String.mk acc.reverse, rest)
    | '\\' :: esc :: rest =>
      match esc with
      | '"' => parseJStringAux fuel ('"' :: acc) rest
      | '\\' => parseJStringAux fuel ('\\' :: acc) rest
      | '/' => parseJStringAux fuel ('/' :: acc) rest
      | 'b' => parseJStringAux fuel ('\x08' :: acc) rest
      | 'f' => parseJStringAux fuel ('\x0c' :: acc) rest
      | 'n' => parseJStringAux fuel ('\n' :: acc) rest
      | 'r' => parseJStringAux fuel ('\r' :: acc) rest
      | 't' => parseJStringAux fuel ('\t' :: acc) rest
      | 'u' =>
        match rest with
        | h1 :: h2 :: h3 :: h4 :: rest2 =>
          match hexDigitVal h1, hexDigitVal h2, hexDigitVal h3, hexDigitVal h4 with
          | some a, some b, some c, some d =>
              parseJStringAux fuel (Char.ofNat (((a * 16 + b) * 16 + c) * 16 + d) :: acc) rest2
          | _, _, _, _ => none
        | _ => none
      | _ => none
    | c :: rest =>
      if c.toNat < 32 then none
      else parseJStringAux fuel (c :: acc) rest

/-- A JSON number, following the grammar of the Python scanner's number
regular expression: `-?(0|[1-9][0-9]*)(\.[0-9]+)?([eE][+-]?[0-9]+)?`, where
an incomplete fraction or exponent is left unconsumed. -/
def parseNumber (input : List Char) : Option (ℚ × List Char) :=
  let sgn : Bool × List Char :=
    match input with
    | '-' :: rest => (true, rest)
    | _ => (false, input)
  let neg := sgn.1
  let r0 := sgn.2
  match r0 with
  | [] => none
  | c :: cs =>
    if ¬ c.isDigit then none
    else
      let ir : List Char × List Char := if c = '0' then ([c], cs) else takeDigits r0
      let intDigits := ir.1
      let afterInt := ir.2
      let fr : List Char × List Char :=
        match afterInt with
        | '.' :: fracRest =>
          let t := takeDigits fracRest
          if t.1.isEmpty then ([], afterInt) else (t.1, t.2)
        | _ => ([], afterInt)
      let fracDigits := fr.1
      let afterFrac := fr.2
      let er : ℤ × List Char :=
        match afterFrac with
        | e :: expRest =>
          if e = 'e' ∨ e = 'E' then
            match expRest with
            | '-' :: ds =>
              let t := takeDigits ds
              if t.1.isEmpty then (0, afterFrac) else (-(digitsVal t.1 : ℤ), t.2)
            | '+' :: ds =>
              let t := takeDigits ds
              if t.1.isEmpty then (0, afterFrac) else ((digitsVal t.1 : ℤ), t.2)
            | ds =>
              let t := takeDigits ds
              if t.1.isEmpty then (0, afterFrac) else ((digitsVal t.1 : ℤ), t.2)
          else (0, afterFrac)
        | [] => (0, afterFrac)
      let expo := er.1
      let afterExp := er.2
      let mantissa : ℚ :=
        (digitsVal intDigits : ℚ) + (digitsVal fracDigits : ℚ) / (10 : ℚ) ^ fracDigits.length
      let scaled : ℚ :=
        if 0 ≤ expo then mantissa * (10 : ℚ) ^ expo.toNat
        else mantissa / (10 : ℚ) ^ (-expo).toNat
      some (if neg then -scaled else scaled, afterExp)

/-- Continuation tags for the single fuelled JSON parsing function:
a value, the remainder of an object, or the remainder of an array. -/
inductive PTag where
  | value
  | objRest (acc : List (String × Json)) (first : Bool)
  | arrRest (acc : List Json) (first : Bool)

/-- One strict JSON parse step (value, object members, array elements),
mirroring the Python scanner: whitespace is skipped around tokens, a
trailing comma is rejected, object keys are strings. -/
def parseStep : Nat → PTag → List Char → Option (Json × List Char)
  | 0, _, _ => none
  | fuel + 1, PTag.value, input =>
    match skipWs input with
    | [] => none
    | '\x7b' :: rest => parseStep fuel (PTag.objRest [] true) rest
    | '[' :: rest => parseStep fuel (PTag.arrRest [] true) rest
    | '"' :: rest =>
      match parseJStringAux fuel [] rest with
      | some (s, r) => some (Json.str s, r)
      | none => none
    | 't' :: 'r' :: 'u' :: 'e' :: rest => some (Json.bool true, rest)
    | 'f' :: 'a' :: 'l' :: 's' :: 'e' :: rest => some (Json.bool false, rest)
    | 'n' :: 'u' :: 'l' :: 'l' :: rest => some (Json.null, rest)
    | other =>
      match parseNumber other with
      | some (q, r) => some (Json.num q, r)
      | none => none
  | fuel + 1, PTag.objRest acc first, input =>
    match skipWs input with
    | '\x7d' :: rest => if first then some (Json.obj acc.reverse, rest) else none
    | '"' :: rest =>
      match parseJStringAux fuel [] rest with
      | none => none
      | some (key, r1) =>
        match skipWs r1 with
        | ':' :: r2 =>
          match parseStep fuel PTag.value r2 with
          | none => none
          | some (v, r3) =>
            match skipWs r3 with
            | ',' :: r4 => parseStep fuel (PTag.objRest ((key, v) :: acc) false) r4
            | '\x7d' :: r4 => some (Json.obj ((key, v) :: acc).reverse, r4)
            | _ => none
        | _ => none
    | _ => none
  | fuel + 1, PTag.arrRest acc first, input =>
    match skipWs input with
    | ']' :: rest => if first then some (Json.arr acc.reverse, rest) else none
    | other =>
      match parseStep fuel PTag.value other with
      | none => none
      | some (v, r1) =>
        match skipWs r1 with
        | ',' :: r2 => parseStep fuel (PTag.arrRest (v :: acc) false) r2
        | ']' :: r2 => some (Json.arr (v :: acc).reverse, r2)
        | _ => none

/-- The embedding of `json.loads`: parse exactly one JSON document,
allowing surrounding whitespace, and fail on trailing data.  The fuel
bounds the recursion depth, which never exceeds twice the input length. -/
def pyJsonLoads (cs : List Char) : Option Json :=
  match parseStep (2 * cs.length + 4) PTag.value cs with
  | some (j, rest) => if (skipWs rest).isEmpty then some j else none
  | none => none

/-- Whitespace stripped by Python's `str.strip()` and matched by the
regular-expression class `\s` on the ASCII inputs in scope. -/
def isPySpace (c : Char) : Bool :=
  c == ' ' || c == '\t' || c == '\n' || c == '\r' || c == '\x0b' || c == '\x0c'

/-- Python `str.strip()` on a character list. -/
def pyStripChars (cs : List Char) : List Char :=
  ((cs.dropWhile isPySpace).reverse.dropWhile isPySpace).reverse

/-- Index of the first occurrence of `pat` as a contiguous sublist, the
embedding of Python's `str.find` / leftmost regular-expression match. -/
def findSub (pat : List Char) : List Char → Option Nat
  | [] => if pat.isEmpty then some 0 else none
  | c :: cs =>
    if pat.isPrefixOf (c :: cs) then some 0
    else
      match findSub pat cs with
      | some n => some (n + 1)
      | none => none

/-- Truncate at the first `"Reason:"` marker, the embedding of
`candidate.split("Reason:", 1)[0]`. -/
def truncAtReason (cs : List Char) : List Char :=
  match findSub "Reason:".data cs with
  | some i => cs.take i
  | none => cs

/-- Contents of the first fenced ```` ```json ... ``` ```` block, trimmed,
the embedding of the search for `` ```json\s*(.*?)\s*``` `` (DOTALL): the
leftmost `` ```json `` marker followed by the closest closing fence. -/
def fenceCandidate (cs : List Char) : Option (List Char) :=
  match findSub "```json".data cs with
  | none => none
  | some i =>
    let afterOpen := cs.drop (i + 7)
    match findSub "```".data afterOpen with
    | none => none
    | some j => some (pyStripChars (afterOpen.take j))

/-- A parse whose document is `null` comes back from `json.loads` as the
Python value `None`, which the caller of `_parse_result` cannot tell from
a failed parse; the successful parse still returns directly, without the
brace retry. -/
def loadsReturned (r : Option Json) : Option Json :=
  match r with
  | some Json.null => none
  | other => other

/-- The embedding of `_parse_result` (policy.py): strip, prefer a fenced
block, truncate at `"Reason:"`, strict parse; on failure retry from the
first opening brace. -/
def parseResult (text : String) : Option Json :=
  let stripped := pyStripChars text.data
  let candidate0 :=
    match fenceCandidate stripped with
    | some c => c
    | none => stripped
  let candidate := pyStripChars (truncAtReason candidate0)
  match pyJsonLoads candidate with
  | some j => loadsReturned (some j)
  | none =>
    match findSub ['\x7b'] candidate with
    | none => none
    | some i => loadsReturned (pyJsonLoads (pyStripChars (truncAtReason (candidate.drop i))))

/-- The policy configuration (`PolicyConfig` in policy.py).  Times of day
are seconds after midnight, durations are seconds.  The notification title
and the lock command line are presentation data and carry no behaviour. -/
structure PolicyConfig where
  workdayCutoff : ℚ
  violationGrace : ℚ
  reminderInterval : ℚ
  violationCaptureInterval : Option ℚ
  offHoursStart : ℚ
  offHoursGrace : ℚ
deriving DecidableEq

/-- A wall-clock instant (`datetime.now()`): a day index and the time of
day in seconds, so that both time-of-day comparisons and instant
subtraction can be expressed. -/
structure PyDateTime where
  day : ℤ
  timeOfDay : ℚ
deriving DecidableEq

/-- Difference of two instants in seconds (`datetime` subtraction). -/
def dtSub (a b : PyDateTime) : ℚ :=
  ((a.day - b.day : ℤ) : ℚ) * 86400 + (a.timeOfDay - b.timeOfDay)

/-- The embedding of `PolicyManager._within_off_hours_grace`: false when
the time of day is before `off_hours_start`, otherwise true when the time
since `off_hours_start` today is at most `off_hours_grace`. -/
def withinOffHoursGrace (cfg : PolicyConfig) (now : PyDateTime) : Bool :=
  if now.timeOfDay < cfg.offHoursStart then false
  else decide (now.timeOfDay - cfg.offHoursStart ≤ cfg.offHoursGrace)

/-- Per-target violation record (`_ViolationState`). -/
structure ViolationState where
  firstDetected : PyDateTime
  lastNotified : PyDateTime
  notified : Bool
deriving DecidableEq

/-- The slice of `PolicyManager` state concerning one target: its entries
in `_violations`, `_last_label` and `_interval_tightened`.  Every code
path of the manager touches these maps at the handled display id only, so
the per-target projection is exact. -/
structure TargetPolicyState where
  violation : Option ViolationState
  lastLabel : Option (String × ℚ)
  tightened : Bool
deriving DecidableEq

/-- Side effects the policy manager can request.  Notification and lock
command lines are external collaborators; the reminder text of the idle
path interpolates numbers and is abstracted to its payload. -/
inductive PolicyAction where
  | notify (message : String)
  | notifyIdle (idleSeconds : ℚ) (lockAfter : ℤ)
  | lock
  | tighten (interval : ℚ)
  | restore
deriving DecidableEq

/-- Python `int()` on a rational: truncation toward zero. -/
def pyInt (q : ℚ) : ℤ :=
  if q < 0 then -Int.floor (-q) else Int.floor q

/-- Python ASCII lowercasing of a string (`str.lower()`; the labels in
scope are ASCII). -/
def pyLower (s : String) : String :=
  String.mk (s.data.map Char.toLower)

/-- Python `dict` lookup on parsed JSON object fields; a duplicate key in
the source text leaves the last value. -/
def jsonGet (fields : List (String × Json)) (k : String) : Option Json :=
  fields.reverse.lookup k

/-- The label/, confidence-extraction prefix of `handle_frame_result`
(lines 67-68 of policy.py): `parsed.get("label", "").lower()` and
`float(parsed.get("confidence", 0)) if ... is not None else 0.0`.
`none` models a Python exception escaping before any state mutation: a
non-dict parse, a non-string label, or a confidence on which `float()` is
outside the model (Python would coerce a numeric string; no claim
exercises string confidences). -/
def extractLabelConf : Json → Option (String × ℚ)
  | Json.obj fields =>
    let labelOpt : Option String :=
      match jsonGet fields "label" with
      | none => some ""
      | some (Json.str s) => some s
      | some _ => none
    match labelOpt with
    | none => none
    | some rawLabel =>
      let confOpt : Option ℚ :=
        match jsonGet fields "confidence" with
        | none => some 0
        | some Json.null => some 0
        | some (Json.num q) => some q
        | some (Json.bool b) => some (if b then 1 else 0)
        | some _ => none
      match confOpt with
      | none => none
      | some conf => some (pyLower rawLabel, conf)
  | _ => none

/-- The embedding of `PolicyManager._tighten_interval`: a no-op unless a
capture controller is wired, a violation capture interval is configured,
and the target is not already tightened. -/
def tightenIntervalStep (cfg : PolicyConfig) (hasController : Bool)
    (st : TargetPolicyState) : TargetPolicyState × List PolicyAction :=
  match cfg.violationCaptureInterval with
  | none => (st, [])
  | some i =>
    if ¬ hasController ∨ st.tightened then (st, [])
    else ({ st with tightened := true }, [PolicyAction.tighten i])

/-- The embedding of `PolicyManager._restore_interval`: the tightened flag
is always dropped; the controller's `restore_interval` is invoked only if
the flag was set and a controller is wired. -/
def restoreIntervalStep (hasController : Bool)
    (st : TargetPolicyState) : TargetPolicyState × List PolicyAction :=
  if ¬ hasController then ({ st with tightened := false }, [])
  else if st.tightened then ({ st with tightened := false }, [PolicyAction.restore])
  else (st, [])

/-- The embedding of `PolicyManager.handle_frame_result` for one target.
`now` stands for the `datetime.now()` reading (the `timestamp` argument of
the Python method is unused by it).  When the text fails to parse, or the
label/confidence extraction raises, the state is unchanged and no side
effect is produced. -/
def handleFrameResult (cfg : PolicyConfig) (hasController : Bool)
    (st : TargetPolicyState) (resultText : String) (now : PyDateTime) :
    TargetPolicyState × List PolicyAction :=
  match parseResult resultText with
  | none => (st, [])
  | some parsed =>
    match extractLabelConf parsed with
    | none => (st, [])
    | some lc =>
      let label := lc.1
      let confidence := lc.2
      let st1 : TargetPolicyState := { st with lastLabel := some (label, confidence) }
      if label ≠ "entertainment" ∨ confidence < 3 / 5 then
        let cleared :=
          if st1.violation.isSome then
            restoreIntervalStep hasController { st1 with violation := none }
          else (st1, [])
        ({ cleared.1 with lastLabel := none }, cleared.2)
      else if withinOffHoursGrace cfg now then
        if st1.violation.isSome then
          restoreIntervalStep hasController { st1 with violation := none }
        else (st1, [])
      else
        match st1.violation with
        | none =>
          let t := tightenIntervalStep cfg hasController
            { st1 with violation := some ⟨now, now, true⟩ }
          (t.1, PolicyAction.notify "Entertainment detected; please return to work" :: t.2)
        | some v =>
          if cfg.violationGrace ≤ dtSub now v.firstDetected then
            let r := restoreIntervalStep hasController { st1 with violation := none }
            (r.1, PolicyAction.lock :: r.2)
          else if cfg.reminderInterval ≤ dtSub now v.lastNotified then
            ({ st1 with violation := some { v with lastNotified := now } },
             [PolicyAction.notify "Entertainment still detected; lock imminent"])
          else (st1, [])

/-- The embedding of `PolicyManager.handle_stream_idle` for one target:
acts only on an existing violation, clears it during the off-hours grace
window, locks past the grace period, otherwise reminds on the reminder
cadence. -/
def handleStreamIdle (cfg : PolicyConfig) (hasController : Bool)
    (st : TargetPolicyState) (idleSeconds : ℚ) (now : PyDateTime) :
    TargetPolicyState × List PolicyAction :=
  match st.violation with
  | none => (st, [])
  | some v =>
    if withinOffHoursGrace cfg now then
      restoreIntervalStep hasController { st with violation := none }
    else
      let elapsed := dtSub now v.firstDetected
      if cfg.violationGrace ≤ elapsed then
        let r := restoreIntervalStep hasController { st with violation := none }
        (r.1, PolicyAction.lock :: r.2)
      else if cfg.reminderInterval ≤ dtSub now v.lastNotified then
        ({ st with violation := some { v with lastNotified := now } },
         [PolicyAction.notifyIdle idleSeconds (pyInt (cfg.violationGrace - elapsed))])
      else (st, [])

/-- The sampling gate of `FrameProcessor.handle_frame` for one target:
the first component is the target's `_last_sample` entry (absent reads as
`0.0`), the second is whether the frame is forwarded to the bounded queue.
A non-positive `sample_interval` disables forwarding; otherwise a frame is
forwarded, and the entry advanced, exactly when its timestamp is at least
`sample_interval` past the last forwarded timestamp. -/
def gateStep (sampleInterval : ℚ) (last : Option ℚ) (ts : ℚ) : Option ℚ × Bool :=
  if sampleInterval ≤ 0 then (last, false)
  else if ts - last.getD 0 < sampleInterval then (last, false)
  else (some ts, true)

/-- Timestamps forwarded to the queue when a sequence of frames for one
target runs through the sampling gate in order. -/
def runGate (sampleInterval : ℚ) : Option ℚ → List ℚ → List ℚ
  | _, [] => []
  | last, ts :: rest =>
    let g := gateStep sampleInterval last ts
    if g.2 then ts :: runGate sampleInterval g.1 rest
    else runGate sampleInterval g.1 rest

/-- Observable steps of `FrameProcessor._process_sample`: the best-effort
thumbnail write (with its success flag) and the hand-off of a non-empty
classification result to the policy manager. -/
inductive ProcessorAction where
  | save (filename : String) (ok : Bool)
  | forward (resultText : String)
deriving DecidableEq

/-- The thumbnail file name built by `FrameProcessor._save_thumbnail`:
`display-{display_id}-{int(timestamp * 1000)}.png`. -/
def saveFilename (displayId : ℕ) (timestamp : ℚ) : String :=
  "display-" ++ toString displayId ++ "-" ++ toString (pyInt (timestamp * 1000)) ++ ".png"

/-- The embedding of `FrameProcessor._process_sample` after a frame is
dequeued.  `pngOk` is whether `sample_buffer_to_png` produced bytes,
`writeOk` whether the thumbnail write succeeds (its failure is caught and
logged), `classifyResult` the classifier's reply.  The classification is
handed to the policy manager when the classifier is enabled, the reply is
a non-empty string, and a policy manager is wired. -/
def processSample (captureDir : Bool) (writeOk : Bool) (vlmEnabled : Bool)
    (hasPolicy : Bool) (pngOk : Bool) (classifyResult : Option String)
    (displayId : ℕ) (timestamp : ℚ) : List ProcessorAction :=
  if ¬ pngOk then []
  else
    (if captureDir then [ProcessorAction.save (saveFilename displayId timestamp) writeOk] else []) ++
    (if vlmEnabled then
      match classifyResult with
      | some r => if r = "" then [] else if hasPolicy then [ProcessorAction.forward r] else []
      | none => []
    else [])

/-- Pointwise update of a map modelled as a function into `Option`. -/
def fupd {α : Type} (f : ℕ → Option α) (k : ℕ) (v : Option α) : ℕ → Option α :=
  fun i => if i = k then v else f i

/-- The cadence state owned by `ScreenshotCaptureManager`: the base
interval fixed at construction, the enumerated display ids, and the
per-display `_display_indices`, `_display_intervals` and `_last_capture`
maps. -/
structure SchedState where
  baseInterval : ℚ
  displayIds : List ℕ
  displayIndices : ℕ → Option ℕ
  displayIntervals : ℕ → Option ℚ
  lastCapture : ℕ → Option ℚ

/-- The scheduler state as built by `__init__`. -/
def schedInit (base : ℚ) : SchedState :=
  { baseInterval := base
    displayIds := []
    displayIndices := fun _ => none
    displayIntervals := fun _ => none
    lastCapture := fun _ => none }

/-- The body of the removed-display loop of `_refresh_displays`: purge the
cadence entries of a display that is no longer enumerable. -/
def schedPurge (s : SchedState) (i : ℕ) : SchedState :=
  { s with
    displayIntervals := fupd s.displayIntervals i none
    lastCapture := fupd s.lastCapture i none }

/-- The body of the added-display loop of `_refresh_displays`: fresh
cadence state with the base interval and an immediately due capture. -/
def schedAdd (now : ℚ) (s : SchedState) (i : ℕ) : SchedState :=
  { s with
    displayIntervals := fupd s.displayIntervals i (some s.baseInterval)
    lastCapture := fupd s.lastCapture i (some (now - s.baseInterval)) }

/-- The embedding of `ScreenshotCaptureManager._refresh_displays`:
`indices` is the enumeration result (display id, screencapture index).
Removed displays are purged, added displays get the base interval and a
last-capture time one base interval in the past; the returned flag is
whether any display was enumerated (the `initial` parameter of the source
only selects logging). -/
def refreshDisplays (indices : List (ℕ × ℕ)) (now : ℚ) (st : SchedState) :
    SchedState × Bool :=
  let newIds := indices.map Prod.fst
  let removed := st.displayIds.filter (fun i => ¬ i ∈ newIds)
  let added := newIds.filter (fun i => ¬ i ∈ st.displayIds)
  let st1 : SchedState :=
    { st with
      displayIds := newIds
      displayIndices := fun i => indices.reverse.lookup i }
  let st2 := removed.foldl schedPurge st1
  let st3 := added.foldl (schedAdd now) st2
  (st3, !newIds.isEmpty)

/-- The embedding of `ScreenshotCaptureManager.start` from a fresh
manager: a fatal error exactly when the initial refresh finds no
displays. -/
def schedStart (base : ℚ) (indices : List (ℕ × ℕ)) (now : ℚ) :
    Except String SchedState :=
  let r := refreshDisplays indices now (schedInit base)
  if r.2 then Except.ok r.1
  else Except.error "No displays available for screenshot capture"

/-- The embedding of `ScreenshotCaptureManager.tighten_interval`: sets the
per-display interval when it is positive, the display is known, and the
value differs from the current one; otherwise leaves the state as is. -/
def schedTightenInterval (st : SchedState) (displayId : ℕ) (interval : ℚ) :
    SchedState :=
  if interval ≤ 0 then st
  else
    match st.displayIntervals displayId with
    | none => st
    | some current =>
      if current = interval then st
      else { st with displayIntervals := fupd st.displayIntervals displayId (some interval) }

/-- The embedding of `ScreenshotCaptureManager.restore_interval`: reverts
a known display's interval to the base interval unless it is already
there. -/
def schedRestoreInterval (st : SchedState) (displayId : ℕ) : SchedState :=
  match st.displayIntervals displayId with
  | none => st
  | some current =>
    if current = st.baseInterval then st
    else { st with displayIntervals := fupd st.displayIntervals displayId (some st.baseInterval) }

/-- Association-list update with Python `dict` semantics: replace in
place, or append a missing key. -/
def aset {β : Type} : List (ℕ × β) → ℕ → β → List (ℕ × β)
  | [], d, v => [(d, v)]
  | (k, w) :: rest, d, v =>
    if k = d then (d, v) :: rest else (k, w) :: aset rest d v

/-- The per-display tracking maps of `ScreenCaptureManager`.  Streams,
delegates, dispatch queues and display objects are opaque to the claims,
so only key membership is tracked for them. -/
structure StreamManagerState where
  streams : List ℕ
  delegates : List ℕ
  queues : List ℕ
  displays : List ℕ
  lastFrame : List (ℕ × ℚ)
  idleNotified : List (ℕ × Bool)
  lastRestart : List (ℕ × ℚ)

/-- The embedding of `ScreenCaptureManager.handle_stream_stop`: every
per-display entry for the stopped display is discarded (the error value
only selects the log line). -/
def handleStreamStop (st : StreamManagerState) (d : ℕ) : StreamManagerState :=
  { streams := st.streams.filter (fun k => ¬ k = d)
    delegates := st.delegates.filter (fun k => ¬ k = d)
    queues := st.queues.filter (fun k => ¬ k = d)
    displays := st.displays.filter (fun k => ¬ k = d)
    lastFrame := st.lastFrame.filter (fun p => ¬ p.1 = d)
    idleNotified := st.idleNotified.filter (fun p => ¬ p.1 = d)
    lastRestart := st.lastRestart.filter (fun p => ¬ p.1 = d) }

/-- The embedding of `ScreenCaptureManager._maybe_restart_stream`: a
restart is suppressed while the backoff has not elapsed since the last
attempt; with no retained display object the stale stream entry is merely
dropped.  Otherwise idle tracking is reset and the stream is reopened via
`_start_stream_for_display` (whose external start failure is caught and
changes no tracked map).  The fresh `time.monotonic()` readings inside the
call are identified with the cycle's `now`.  The flag reports whether a
restart was attempted. -/
def maybeRestartStream (backoff : ℚ) (now : ℚ) (st : StreamManagerState)
    (d : ℕ) : StreamManagerState × Bool :=
  let lastRestart := (st.lastRestart.lookup d).getD 0
  if now - lastRestart < backoff then (st, false)
  else
    let st1 := { st with streams := st.streams.filter (fun k => ¬ k = d) }
    if ¬ d ∈ st.displays then (st1, false)
    else
      let st2 : StreamManagerState :=
        { st1 with
          delegates := st1.delegates.filter (fun k => ¬ k = d)
          queues := st1.queues.filter (fun k => ¬ k = d)
          lastRestart := aset st1.lastRestart d now
          lastFrame := aset st1.lastFrame d now
          idleNotified := aset st1.idleNotified d false }
      let st3 : StreamManagerState :=
        { st2 with
          streams := d :: st2.streams
          delegates := d :: st2.delegates
          queues := d :: st2.queues
          displays := st2.displays
          lastFrame := aset st2.lastFrame d now
          idleNotified := aset st2.idleNotified d false
          lastRestart := aset st2.lastRestart d now }
      (st3, true)

/-- Observable steps of one watchdog cycle: an idle-callback invocation
with the idle duration, or a restart attempt. -/
inductive WatchdogAction where
  | idleCb (idleSeconds : ℚ)
  | restartAttempt
deriving DecidableEq

/-- Handling of one `_last_frame` snapshot entry inside a watchdog pass at
instant `now`: a display idle beyond the window is edge-logged, offered a
backoff-guarded restart, and reported to the idle callback (when one is
wired); a live display has its idle-notified flag reset. -/
def watchdogEntry (window backoff : ℚ) (hasCallback : Bool) (now : ℚ)
    (acc : StreamManagerState × List (ℕ × WatchdogAction)) (entry : ℕ × ℚ) :
    StreamManagerState × List (ℕ × WatchdogAction) :=
  let s := acc.1
  let d := entry.1
  let idleDuration := now - entry.2
  if window < idleDuration then
    let s1 :=
      if (s.idleNotified.lookup d).getD false then s
      else { s with idleNotified := aset s.idleNotified d true }
    let r := maybeRestartStream backoff now s1 d
    (r.1,
      acc.2 ++ (if r.2 then [(d, WatchdogAction.restartAttempt)] else []) ++
        (if hasCallback then [(d, WatchdogAction.idleCb idleDuration)] else []))
  else
    ({ s with idleNotified := aset s.idleNotified d false }, acc.2)

/-- One pass of `ScreenCaptureManager._watchdog_loop` at instant `now`:
iterate over a snapshot of `_last_frame`, handling each entry in turn. -/
def watchdogCheck (window backoff : ℚ) (hasCallback : Bool) (now : ℚ)
    (st : StreamManagerState) : StreamManagerState × List (ℕ × WatchdogAction) :=
  st.lastFrame.foldl (watchdogEntry window backoff hasCallback now) (st, [])

/-- Iterated watchdog passes at the given sequence of instants. -/
def runWatchdog (window backoff : ℚ) (hasCallback : Bool) :
    List ℚ → StreamManagerState → StreamManagerState × List (ℕ × WatchdogAction)
  | [], st => (st, [])
  | now :: rest, st =>
    let r1 := watchdogCheck window backoff hasCallback now st
    let r2 := runWatchdog window backoff hasCallback rest r1.1
    (r2.1, r1.2 ++ r2.2)

/-- Whether a processor action is the thumbnail write. -/
def isSaveAction : ProcessorAction → Bool
  | .save _ _ => true
  | _ => false

/-- Whether a processor action is the policy hand-off. -/
def isForwardAction : ProcessorAction → Bool
  | .forward _ => true
  | _ => false

/-- C4: the result-text parser accepts a fenced code block, a bare JSON
object, and text with a trailing "Reason:" suffix (including the retry
from the first opening brace), and yields no result on non-JSON garbage;
but it is not true that it always returns a single JSON object or no
result: on the input "42" it returns the JSON number 42, contradicting its
own `Optional[dict]` annotation and docstring (and making the caller's
`parsed.get` crash). -/
theorem C4_parse_result_nonobject_on_bare_number :
    parseResult "42" = some (Json.num 42) ∧
    Json.isObj (Json.num 42) = false ∧
    parseResult "```json\n\x7b\"label\":\"entertainment\",\"confidence\":0.8\x7d\n```" =
      some (Json.obj [("label", Json.str "entertainment"), ("confidence", Json.num (4 / 5))]) ∧
    parseResult "\x7b\"label\":\"work\",\"confidence\":0.9\x7d" =
      some (Json.obj [("label", Json.str "work"), ("confidence", Json.num (9 / 10))]) ∧
    parseResult "\x7b\"label\":\"work\",\"confidence\":0.9\x7d Reason: spreadsheets" =
      some (Json.obj [("label", Json.str "work"), ("confidence", Json.num (9 / 10))]) ∧
    parseResult "It is \x7b\"label\": \"news\"\x7d Reason: text" =
      some (Json.obj [("label", Json.str "news")]) ∧
    parseResult "non-json garbage" = none := by
  refine ⟨?_, rfl, ?_, ?_, ?_, ?_, ?_⟩ <;> with_unfolding_all rfl

/-- C9 counterexample: a processed sample for display 1 at timestamp 2 s is
persisted under the name `display-1-2000.png`, not `target-1-2000.png` as
the claim states. -/
theorem C9_counterexample_filename_uses_display :
    processSample true true false false true none 1 2 =
      [ProcessorAction.save "display-1-2000.png" true] ∧
    "display-1-2000.png" ≠ "target-1-2000.png" := by
  constructor
  · with_unfolding_all rfl
  · decide

/-- C9 (amended): when a capture directory is configured, every processed
sample whose PNG conversion succeeded is persisted as exactly one file
named `display-<display_id>-<epoch_milliseconds>.png`, and a write failure
never interrupts processing: the classification hand-off is identical
whether the write succeeds or fails. -/
theorem C9_save_thumbnail_best_effort :
    ∀ (writeOk vlmEnabled hasPolicy : Bool) (classifyResult : Option String)
      (displayId : ℕ) (timestamp : ℚ),
      (processSample true writeOk vlmEnabled hasPolicy true classifyResult
          displayId timestamp).filter isSaveAction =
        [ProcessorAction.save (saveFilename displayId timestamp) writeOk] ∧
      (processSample true writeOk vlmEnabled hasPolicy true classifyResult
          displayId timestamp).filter isForwardAction =
        (processSample true true vlmEnabled hasPolicy true classifyResult
          displayId timestamp).filter isForwardAction := by
  intro writeOk vlmEnabled hasPolicy classifyResult displayId timestamp
  cases vlmEnabled <;> cases hasPolicy <;> cases classifyResult <;>
    simp [processSample, isSaveAction, isForwardAction]

/-- Base interval is untouched by the added-display loop. -/
lemma schedAdd_foldl_baseInterval (now : ℚ) :
    ∀ (l : List ℕ) (s : SchedState), (l.foldl (schedAdd now) s).baseInterval = s.baseInterval := by
  intro l
  induction l with
  | nil => intro s; rfl
  | cons i rest ih => intro s; rw [List.foldl_cons, ih]; rfl

/-- The added-display loop does not touch displays outside the list. -/
lemma schedAdd_foldl_not_mem (now : ℚ) :
    ∀ (l : List ℕ) (s : SchedState) (d : ℕ), ¬ d ∈ l →
      (l.foldl (schedAdd now) s).displayIntervals d = s.displayIntervals d ∧
      (l.foldl (schedAdd now) s).lastCapture d = s.lastCapture d := by
  intro l
  induction l with
  | nil => intro s d _; exact ⟨rfl, rfl⟩
  | cons i rest ih =>
    intro s d hd
    rw [List.mem_cons] at hd
    push_neg at hd
    rw [List.foldl_cons]
    have h := ih (schedAdd now s i) d hd.2
    rw [h.1, h.2]
    constructor <;> simp [schedAdd, fupd, hd.1]

/-- Every display written by the added-display loop gets the base interval
and an immediately due last-capture time. -/
lemma schedAdd_foldl_mem (now : ℚ) :
    ∀ (l : List ℕ) (s : SchedState) (d : ℕ), d ∈ l →
      (l.foldl (schedAdd now) s).displayIntervals d = some s.baseInterval ∧
      (l.foldl (schedAdd now) s).lastCapture d = some (now - s.baseInterval) := by
  intro l
  induction l with
  | nil => intro s d hd; exact absurd hd (List.not_mem_nil d)
  | cons i rest ih =>
    intro s d hd
    rw [List.foldl_cons]
    by_cases hr : d ∈ rest
    · have h := ih (schedAdd now s i) d hr
      rw [h.1, h.2]
      constructor <;> rfl
    · have hdi : d = i := by
        rcases List.mem_cons.mp hd with h | h
        · exact h
        · exact absurd h hr
      have h := schedAdd_foldl_not_mem now rest (schedAdd now s i) d hr
      rw [h.1, h.2]
      constructor <;> simp [schedAdd, fupd, hdi]

/-- C8: `start()` fails with the fatal no-displays error exactly when
enumeration finds no displays at startup; otherwise every discovered
display's cadence state starts at the base interval with a last-capture
time one base interval in the past, so its first capture is immediately
due. -/
theorem C8_start_no_displays_or_fresh_cadence :
    ∀ (base now : ℚ) (indices : List (ℕ × ℕ)),
      (schedStart base indices now =
          Except.error "No displays available for screenshot capture" ↔ indices = []) ∧
      (∀ st, schedStart base indices now = Except.ok st →
        ∀ d, d ∈ indices.map Prod.fst →
          st.displayIntervals d = some base ∧ st.lastCapture d = some (now - base)) := by
  intro base now indices
  have hfilter : (indices.map Prod.fst).filter (fun i => ¬ i ∈ (schedInit base).displayIds) =
      indices.map Prod.fst := by
    apply List.filter_eq_self.mpr
    intro a _
    simp [schedInit]
  constructor
  · constructor
    · intro h
      by_cases he : indices.map Prod.fst = []
      · exact List.map_eq_nil_iff.mp he
      · exfalso
        have : (!(indices.map Prod.fst).isEmpty) = true := by
          simp [List.isEmpty_iff, he]
        simp only [schedStart, refreshDisplays, this, if_true] at h
        exact Except.noConfusion h
    · intro h
      subst h
      simp [schedStart, refreshDisplays]
  · intro st hok d hd
    by_cases he : indices.map Prod.fst = []
    · rw [he] at hd
      exact absurd hd (List.not_mem_nil d)
    · have hne : (!(indices.map Prod.fst).isEmpty) = true := by
        simp [List.isEmpty_iff, he]
      have hrem : ((schedInit base).displayIds.filter
          (fun i => ¬ i ∈ indices.map Prod.fst)) = [] := by
        simp [schedInit]
      simp only [schedStart, refreshDisplays, hne, if_true, Except.ok.injEq] at hok
      subst hok
      simp only [hfilter, hrem, List.foldl_nil]
      exact schedAdd_foldl_mem now (indices.map Prod.fst) _ d hd

/-- With a non-positive sampling interval the gate forwards nothing. -/
lemma runGate_nonpos (I : ℚ) (h : I ≤ 0) :
    ∀ (last : Option ℚ) (tss : List ℚ), runGate I last tss = [] := by
  intro last tss
  induction tss generalizing last with
  | nil => rfl
  | cons t rest ih => simp [runGate, gateStep, if_pos h, ih]

/-- The first timestamp forwarded after `last` is at least `last + I`. -/
lemma runGate_head_lb (I : ℚ) :
    ∀ (tss : List ℚ) (l h : ℚ),
      (runGate I (some l) tss).head? = some h → I ≤ h - l := by
  intro tss
  induction tss with
  | nil => intro l h hh; simp [runGate] at hh
  | cons t rest ih =>
    intro l h hh
    by_cases h1 : I ≤ 0
    · rw [show runGate I (some l) (t :: rest) = runGate I (some l) rest from by
        simp [runGate, gateStep, h1]] at hh
      exact ih l h hh
    · by_cases h2 : t - l < I
      · rw [show runGate I (some l) (t :: rest) = runGate I (some l) rest from by
          simp [runGate, gateStep, h1, h2]] at hh
        exact ih l h hh
      · rw [show runGate I (some l) (t :: rest) = t :: runGate I (some t) rest from by
          simp [runGate, gateStep, h1, h2]] at hh
        simp only [List.head?_cons, Option.some.injEq] at hh
        subst hh
        linarith [not_lt.mp h2]

/-- Timestamps forwarded by the gate are pairwise at least `I` apart. -/
lemma runGate_chain (I : ℚ) :
    ∀ (tss : List ℚ) (last : Option ℚ),
      List.Chain' (fun a b => I ≤ b - a) (runGate I last tss) := by
  intro tss
  induction tss with
  | nil => intro last; simp [runGate]
  | cons t rest ih =>
    intro last
    by_cases h1 : I ≤ 0
    · rw [show runGate I last (t :: rest) = runGate I last rest from by
        simp [runGate, gateStep, h1]]
      exact ih last
    · by_cases h2 : t - last.getD 0 < I
      · rw [show runGate I last (t :: rest) = runGate I last rest from by
          simp [runGate, gateStep, h1, h2]]
        exact ih last
      · rw [show runGate I last (t :: rest) = t :: runGate I (some t) rest from by
          simp [runGate, gateStep, h1, h2]]
        refine List.chain'_cons'.mpr ⟨?_, ih (some t)⟩
        intro h hh
        exact runGate_head_lb I rest t h (Option.mem_def.mp hh)

/-- C6: any two consecutive samples forwarded to the bounded queue by the
sampling gate have timestamps at least `sample_interval` apart, and a
non-positive `sample_interval` disables forwarding entirely. -/
theorem C6_sampling_gate_spacing :
    (∀ (I : ℚ) (last : Option ℚ) (tss : List ℚ),
      List.Chain' (fun a b => I ≤ b - a) (runGate I last tss)) ∧
    (∀ (I : ℚ) (last : Option ℚ) (tss : List ℚ),
      I ≤ 0 → runGate I last tss = []) := by
  constructor
  · intro I last tss
    exact runGate_chain I tss last
  · intro I last tss h
    exact runGate_nonpos I h last tss

/-- C6 witness: a concrete run of the gate with interval 10, and the
disabled gate at interval 0. -/
theorem C6_sampling_gate_spacing_witness :
    List.Chain' (fun a b => (10:ℚ) ≤ b - a) (runGate 10 none [0, 5, 12, 30]) ∧
    runGate (0:ℚ) none [1, 2] = [] :=
  ⟨C6_sampling_gate_spacing.1 10 none [0, 5, 12, 30],
   C6_sampling_gate_spacing.2 0 none [1, 2] le_rfl⟩

/-- C5: policy-side interval tightening has effect at most once per
violation lifetime (while the tightened flag is set, a further tighten
request is a no-op; an effective tighten needs the flag clear and sets
it), the restore step issues a controller call only if a tighten was
previously applied (and always leaves the flag clear); scheduler-side,
`tighten_interval` sets the display's interval exactly when the interval
is positive, the display exists, and the value differs — it is an
idempotent no-op otherwise. -/
theorem C5_tighten_once_restore_guarded :
    (∀ (cfg : PolicyConfig) (hasController : Bool) (st : TargetPolicyState),
      st.tightened = true → tightenIntervalStep cfg hasController st = (st, [])) ∧
    (∀ (cfg : PolicyConfig) (st : TargetPolicyState) (i : ℚ),
      cfg.violationCaptureInterval = some i → st.tightened = false →
      tightenIntervalStep cfg true st =
        ({ st with tightened := true }, [PolicyAction.tighten i])) ∧
    (∀ (hasController : Bool) (st : TargetPolicyState),
      (restoreIntervalStep hasController st).2 ≠ [] → st.tightened = true) ∧
    (∀ (hasController : Bool) (st : TargetPolicyState),
      (restoreIntervalStep hasController st).1.tightened = false) ∧
    (∀ (st : SchedState) (d : ℕ) (i : ℚ),
      i ≤ 0 ∨ st.displayIntervals d = none ∨ st.displayIntervals d = some i →
      schedTightenInterval st d i = st) ∧
    (∀ (st : SchedState) (d : ℕ) (i cur : ℚ),
      0 < i → st.displayIntervals d = some cur → cur ≠ i →
      (schedTightenInterval st d i).displayIntervals d = some i) ∧
    (∀ (st : SchedState) (d : ℕ) (i : ℚ),
      schedTightenInterval (schedTightenInterval st d i) d i = schedTightenInterval st d i) := by
  refine ⟨?_, ?_, ?_, ?_, ?_, ?_, ?_⟩
  · intro cfg hc st h
    rcases hv : cfg.violationCaptureInterval with _ | i <;>
      simp [tightenIntervalStep, hv, h]
  · intro cfg st i hv ht
    simp [tightenIntervalStep, hv, ht]
  · intro hc st h
    by_contra hnt
    rw [Bool.not_eq_true] at hnt
    cases hc <;> simp [restoreIntervalStep, hnt] at h
  · intro hc st
    cases hc <;> cases ht : st.tightened <;> simp [restoreIntervalStep, ht]
  · intro st d i h
    rcases h with h | h | h
    · simp [schedTightenInterval, if_pos h]
    · simp [schedTightenInterval, h]
    · simp [schedTightenInterval, h]
  · intro st d i cur h0 hc hne
    simp [schedTightenInterval, not_le.mpr h0, hc, hne, fupd, Ne.symm hne]
  · intro st d i
    by_cases hi : i ≤ 0
    · simp [schedTightenInterval, if_pos hi]
    · rcases hd : st.displayIntervals d with _ | cur
      · simp [schedTightenInterval, hi, hd]
      · by_cases hci : cur = i
        · simp [schedTightenInterval, hi, hd, hci]
        · simp [schedTightenInterval, hi, hd, hci, fupd]

/-- C5 witness: a tightened target ignores a second tighten request; an
effective tighten on a fresh target; the scheduler tightens display 1 from
30 to 5 and a repeated identical request is a no-op. -/
theorem C5_tighten_once_restore_guarded_witness :
    tightenIntervalStep ⟨61200, 30, 10, some 5, 61200, 300⟩ true
        ⟨none, none, true⟩ = (⟨none, none, true⟩, []) ∧
    tightenIntervalStep ⟨61200, 30, 10, some 5, 61200, 300⟩ true
        ⟨none, none, false⟩ = (⟨none, none, true⟩, [PolicyAction.tighten 5]) ∧
    (schedTightenInterval
        ⟨30, [1], fun _ => none, fupd (fun _ => none) 1 (some 30), fun _ => none⟩
        1 5).displayIntervals 1 = some 5 ∧
    schedTightenInterval (schedTightenInterval
        ⟨30, [1], fun _ => none, fupd (fun _ => none) 1 (some 30), fun _ => none⟩ 1 5) 1 5 =
      schedTightenInterval
        ⟨30, [1], fun _ => none, fupd (fun _ => none) 1 (some 30), fun _ => none⟩ 1 5 :=
  ⟨C5_tighten_once_restore_guarded.1 _ true _ rfl,
   C5_tighten_once_restore_guarded.2.1 _ _ 5 rfl rfl,
   C5_tighten_once_restore_guarded.2.2.2.2.2.1 _ 1 5 30 (by norm_num) rfl (by norm_num),
   C5_tighten_once_restore_guarded.2.2.2.2.2.2 _ 1 5⟩

/-- A restart attempt implies the backoff has elapsed since the last
attempt. -/
lemma maybeRestart_attempt_backoff (backoff now : ℚ) (s : StreamManagerState) (d : ℕ) :
    (maybeRestartStream backoff now s d).2 = true →
      backoff ≤ now - (s.lastRestart.lookup d).getD 0 := by
  intro h
  by_cases hb : now - (s.lastRestart.lookup d).getD 0 < backoff
  · simp [maybeRestartStream, hb] at h
  · exact not_lt.mp hb

/-- C7: on a watchdog cycle where a display's idle duration exceeds the
window, the idle callback (when wired) is invoked with the idle duration
regardless of the restart backoff, while a restart is attempted on that
cycle only if the backoff has elapsed since the last restart attempt for
that display. -/
theorem C7_watchdog_idle_callback_and_restart_backoff :
    ∀ (window backoff now lt : ℚ) (st : StreamManagerState) (d : ℕ) (hasCallback : Bool),
      st.lastFrame = [(d, lt)] → window < now - lt →
      (hasCallback = true →
        (d, WatchdogAction.idleCb (now - lt)) ∈
          (watchdogCheck window backoff hasCallback now st).2) ∧
      ((d, WatchdogAction.restartAttempt) ∈ (watchdogCheck window backoff hasCallback now st).2 →
        backoff ≤ now - (st.lastRestart.lookup d).getD 0) := by
  intro window backoff now lt st d hasCallback hlf hidle
  have hcheck : watchdogCheck window backoff hasCallback now st =
      watchdogEntry window backoff hasCallback now (st, []) (d, lt) := by
    simp [watchdogCheck, hlf]
  rw [hcheck]
  constructor
  · intro hcb
    by_cases hn : (st.idleNotified.lookup d).getD false <;>
      simp [watchdogEntry, hidle, hn, hcb]
  · intro hmem
    by_cases hn : (st.idleNotified.lookup d).getD false
    · by_cases h2 : (maybeRestartStream backoff now st d).2 = true
      · exact maybeRestart_attempt_backoff backoff now st d h2
      · exfalso
        rw [Bool.not_eq_true] at h2
        cases hasCallback <;> simp [watchdogEntry, hidle, hn, h2] at hmem
    · by_cases h2 : (maybeRestartStream backoff now
          { st with idleNotified := aset st.idleNotified d true } d).2 = true
      · exact maybeRestart_attempt_backoff backoff now
          { st with idleNotified := aset st.idleNotified d true } d h2
      · exfalso
        rw [Bool.not_eq_true] at h2
        cases hasCallback <;> simp [watchdogEntry, hidle, hn, h2] at hmem

/-- C7 witness: display 1 with last frame at 0, checked at 25 with window
20 and backoff 30: the idle callback fires, and any restart attempt on
this cycle would require the backoff to have elapsed. -/
theorem C7_watchdog_idle_callback_and_restart_backoff_witness :
    (true = true →
      (1, WatchdogAction.idleCb (25 - 0)) ∈
        (watchdogCheck 20 30 true 25 ⟨[1], [1], [1], [1], [(1, 0)], [], []⟩).2) ∧
    ((1, WatchdogAction.restartAttempt) ∈
        (watchdogCheck 20 30 true 25 ⟨[1], [1], [1], [1], [(1, 0)], [], []⟩).2 →
      (30:ℚ) ≤ 25 - ((([] : List (ℕ × ℚ)).lookup 1).getD 0)) :=
  C7_watchdog_idle_callback_and_restart_backoff 20 30 25 0
    ⟨[1], [1], [1], [1], [(1, 0)], [], []⟩ 1 true rfl (by norm_num)

/-- Updating a key other than `d` cannot introduce `d` into an
association list. -/
lemma aset_absent {β : Type} (k d : ℕ) (hkd : k ≠ d) :
    ∀ (l : List (ℕ × β)) (v : β),
      ¬ d ∈ l.map Prod.fst → ¬ d ∈ (aset l k v).map Prod.fst := by
  intro l
  induction l with
  | nil =>
    intro v _
    simp [aset, Ne.symm hkd]
  | cons p rest ih =>
    intro v h
    rw [List.map_cons, List.mem_cons] at h
    push_neg at h
    by_cases hk : p.1 = k
    · rw [show aset (p :: rest) k v = (k, v) :: rest from by
        cases p
        simp only [aset]
        simp_all]
      simp [Ne.symm hkd, h.2]
    · rw [show aset (p :: rest) k v = p :: aset rest k v from by
        cases p
        simp only [aset]
        simp_all]
      simp only [List.map_cons, List.mem_cons]
      push_neg
      exact ⟨h.1, ih v h.2⟩

/-- A restart of another display never introduces `d` into `_last_frame`. -/
lemma maybeRestart_lastFrame_absent (backoff now : ℚ) (s : StreamManagerState)
    (k d : ℕ) (hkd : k ≠ d) (h : ¬ d ∈ s.lastFrame.map Prod.fst) :
    ¬ d ∈ (maybeRestartStream backoff now s k).1.lastFrame.map Prod.fst := by
  by_cases hb : now - (s.lastRestart.lookup k).getD 0 < backoff
  · simpa [maybeRestartStream, hb] using h
  · by_cases hd2 : k ∈ s.displays
    · rw [show (maybeRestartStream backoff now s k).1.lastFrame =
          aset (aset s.lastFrame k now) k now from by
        simp [maybeRestartStream, hb, hd2]]
      exact aset_absent k d hkd _ now (aset_absent k d hkd _ now h)
    · simpa [maybeRestartStream, hb, hd2] using h

/-- Handling a snapshot entry of another display neither introduces `d`
into `_last_frame` nor emits an action for `d`. -/
lemma watchdogEntry_absent (window backoff : ℚ) (hasCallback : Bool) (now : ℚ)
    (acc : StreamManagerState × List (ℕ × WatchdogAction)) (entry : ℕ × ℚ) (d : ℕ)
    (hkd : entry.1 ≠ d)
    (h1 : ¬ d ∈ acc.1.lastFrame.map Prod.fst)
    (h2 : ∀ a ∈ acc.2, a.1 ≠ d) :
    ¬ d ∈ (watchdogEntry window backoff hasCallback now acc entry).1.lastFrame.map Prod.fst ∧
    ∀ a ∈ (watchdogEntry window backoff hasCallback now acc entry).2, a.1 ≠ d := by
  by_cases hw : window < now - entry.2
  · constructor
    · by_cases hn : (acc.1.idleNotified.lookup entry.1).getD false = true
      · rw [show (watchdogEntry window backoff hasCallback now acc entry).1 =
            (maybeRestartStream backoff now acc.1 entry.1).1 from by
          simp [watchdogEntry, hw, hn]]
        exact maybeRestart_lastFrame_absent backoff now _ entry.1 d hkd h1
      · rw [show (watchdogEntry window backoff hasCallback now acc entry).1 =
            (maybeRestartStream backoff now
              { acc.1 with idleNotified := aset acc.1.idleNotified entry.1 true }
              entry.1).1 from by
          simp [watchdogEntry, hw, hn]]
        exact maybeRestart_lastFrame_absent backoff now _ entry.1 d hkd h1
    · intro a ha
      by_cases hn : (acc.1.idleNotified.lookup entry.1).getD false = true
      · rw [show (watchdogEntry window backoff hasCallback now acc entry).2 =
            acc.2 ++ (if (maybeRestartStream backoff now acc.1 entry.1).2 = true then
              [(entry.1, WatchdogAction.restartAttempt)] else []) ++
            (if hasCallback = true then [(entry.1, WatchdogAction.idleCb (now - entry.2))]
              else []) from by simp [watchdogEntry, hw, hn]] at ha
        rcases List.mem_append.mp ha with ha | ha
        · rcases List.mem_append.mp ha with ha | ha
          · exact h2 a ha
          · split at ha
            · rw [List.mem_singleton] at ha; rw [ha]; exact hkd
            · exact absurd ha (List.not_mem_nil a)
        · split at ha
          · rw [List.mem_singleton] at ha; rw [ha]; exact hkd
          · exact absurd ha (List.not_mem_nil a)
      · rw [show (watchdogEntry window backoff hasCallback now acc entry).2 =
            acc.2 ++ (if (maybeRestartStream backoff now
              { acc.1 with idleNotified := aset acc.1.idleNotified entry.1 true }
              entry.1).2 = true then
              [(entry.1, WatchdogAction.restartAttempt)] else []) ++
            (if hasCallback = true then [(entry.1, WatchdogAction.idleCb (now - entry.2))]
              else []) from by simp [watchdogEntry, hw, hn]] at ha
        rcases List.mem_append.mp ha with ha | ha
        · rcases List.mem_append.mp ha with ha | ha
          · exact h2 a ha
          · split at ha
            · rw [List.mem_singleton] at ha; rw [ha]; exact hkd
            · exact absurd ha (List.not_mem_nil a)
        · split at ha
          · rw [List.mem_singleton] at ha; rw [ha]; exact hkd
          · exact absurd ha (List.not_mem_nil a)
  · constructor
    · simpa [watchdogEntry, hw] using h1
    · intro a ha
      rw [show (watchdogEntry window backoff hasCallback now acc entry).2 = acc.2 from by
        simp [watchdogEntry, hw]] at ha
      exact h2 a ha

/-- Folding the watchdog pass over snapshot entries that all concern other
displays preserves the absence of `d` and emits no action for `d`. -/
lemma watchdog_foldl_absent (window backoff : ℚ) (hasCallback : Bool) (now : ℚ) (d : ℕ) :
    ∀ (entries : List (ℕ × ℚ)) (acc : StreamManagerState × List (ℕ × WatchdogAction)),
      (∀ e ∈ entries, e.1 ≠ d) →
      ¬ d ∈ acc.1.lastFrame.map Prod.fst → (∀ a ∈ acc.2, a.1 ≠ d) →
      ¬ d ∈ (entries.foldl (watchdogEntry window backoff hasCallback now) acc).1.lastFrame.map
          Prod.fst ∧
      ∀ a ∈ (entries.foldl (watchdogEntry window backoff hasCallback now) acc).2, a.1 ≠ d := by
  intro entries
  induction entries with
  | nil => intro acc _ h1 h2; exact ⟨h1, h2⟩
  | cons e rest ih =>
    intro acc he h1 h2
    rw [List.foldl_cons]
    have hstep := watchdogEntry_absent window backoff hasCallback now acc e d
      (he e (List.mem_cons_self e rest)) h1 h2
    exact ih _ (fun x hx => he x (List.mem_cons_of_mem e hx)) hstep.1 hstep.2

/-- A full watchdog pass on a state without `d` in `_last_frame` keeps `d`
absent and emits no action for `d`. -/
lemma watchdogCheck_absent (window backoff : ℚ) (hasCallback : Bool) (now : ℚ)
    (st : StreamManagerState) (d : ℕ) (h : ¬ d ∈ st.lastFrame.map Prod.fst) :
    ¬ d ∈ (watchdogCheck window backoff hasCallback now st).1.lastFrame.map Prod.fst ∧
    ∀ a ∈ (watchdogCheck window backoff hasCallback now st).2, a.1 ≠ d := by
  refine watchdog_foldl_absent window backoff hasCallback now d st.lastFrame (st, []) ?_ h ?_
  · intro e he hed
    exact h (hed ▸ List.mem_map_of_mem Prod.fst he)
  · intro a ha
    exact absurd ha (List.not_mem_nil a)

/-- Iterated watchdog passes keep `d` absent and silent. -/
lemma runWatchdog_absent (window backoff : ℚ) (hasCallback : Bool) (d : ℕ) :
    ∀ (nows : List ℚ) (st : StreamManagerState), ¬ d ∈ st.lastFrame.map Prod.fst →
      ¬ d ∈ (runWatchdog window backoff hasCallback nows st).1.lastFrame.map Prod.fst ∧
      ∀ a ∈ (runWatchdog window backoff hasCallback nows st).2, a.1 ≠ d := by
  intro nows
  induction nows with
  | nil =>
    intro st h
    exact ⟨h, fun a ha => absurd ha (List.not_mem_nil a)⟩
  | cons now rest ih =>
    intro st h
    have h1 := watchdogCheck_absent window backoff hasCallback now st d h
    have h2 := ih _ h1.1
    simp only [runWatchdog]
    refine ⟨h2.1, ?_⟩
    intro a ha
    rcases List.mem_append.mp ha with ha | ha
    · exact h1.2 a ha
    · exact h2.2 a ha

/-- C10: after `handle_stream_stop` for display `d`, every per-display
tracking entry (stream, delegate, queue, display object, last-frame time,
idle-notified flag, last-restart time) is gone, and no sequence of
subsequent watchdog cycles ever flags `d`, invokes the idle callback for
`d`, or attempts to restart its stream — the display stays dropped. -/
theorem C10_stream_stop_permanently_drops_display :
    ∀ (st : StreamManagerState) (d : ℕ) (window backoff : ℚ) (hasCallback : Bool)
      (nows : List ℚ),
      ¬ d ∈ (handleStreamStop st d).streams ∧
      ¬ d ∈ (handleStreamStop st d).delegates ∧
      ¬ d ∈ (handleStreamStop st d).queues ∧
      ¬ d ∈ (handleStreamStop st d).displays ∧
      ¬ d ∈ (handleStreamStop st d).lastFrame.map Prod.fst ∧
      ¬ d ∈ (handleStreamStop st d).idleNotified.map Prod.fst ∧
      ¬ d ∈ (handleStreamStop st d).lastRestart.map Prod.fst ∧
      (∀ a ∈ (runWatchdog window backoff hasCallback nows (handleStreamStop st d)).2,
        a.1 ≠ d) ∧
      ¬ d ∈ (runWatchdog window backoff hasCallback nows
          (handleStreamStop st d)).1.lastFrame.map Prod.fst := by
  intro st d window backoff hasCallback nows
  have habs : ¬ d ∈ (handleStreamStop st d).lastFrame.map Prod.fst := by
    simp [handleStreamStop, List.mem_map, List.mem_filter]
  have hrun := runWatchdog_absent window backoff hasCallback d nows (handleStreamStop st d) habs
  refine ⟨?_, ?_, ?_, ?_, habs, ?_, ?_, hrun.2, hrun.1⟩ <;>
    simp [handleStreamStop, List.mem_filter, List.mem_map]

/-- C10 witness: with displays 1 and 2 tracked, stopping display 1's
stream leaves no trace of it and two subsequent watchdog cycles never act
on it. -/
theorem C10_stream_stop_permanently_drops_display_witness :
    ¬ 1 ∈ (handleStreamStop ⟨[1, 2], [1, 2], [1, 2], [1, 2], [(1, 0), (2, 0)],
        [(1, false), (2, false)], [(1, 0), (2, 0)]⟩ 1).streams ∧
    ¬ 1 ∈ (handleStreamStop ⟨[1, 2], [1, 2], [1, 2], [1, 2], [(1, 0), (2, 0)],
        [(1, false), (2, false)], [(1, 0), (2, 0)]⟩ 1).delegates ∧
    ¬ 1 ∈ (handleStreamStop ⟨[1, 2], [1, 2], [1, 2], [1, 2], [(1, 0), (2, 0)],
        [(1, false), (2, false)], [(1, 0), (2, 0)]⟩ 1).queues ∧
    ¬ 1 ∈ (handleStreamStop ⟨[1, 2], [1, 2], [1, 2], [1, 2], [(1, 0), (2, 0)],
        [(1, false), (2, false)], [(1, 0), (2, 0)]⟩ 1).displays ∧
    ¬ 1 ∈ (handleStreamStop ⟨[1, 2], [1, 2], [1, 2], [1, 2], [(1, 0), (2, 0)],
        [(1, false), (2, false)], [(1, 0), (2, 0)]⟩ 1).lastFrame.map Prod.fst ∧
    ¬ 1 ∈ (handleStreamStop ⟨[1, 2], [1, 2], [1, 2], [1, 2], [(1, 0), (2, 0)],
        [(1, false), (2, false)], [(1, 0), (2, 0)]⟩ 1).idleNotified.map Prod.fst ∧
    ¬ 1 ∈ (handleStreamStop ⟨[1, 2], [1, 2], [1, 2], [1, 2], [(1, 0), (2, 0)],
        [(1, false), (2, false)], [(1, 0), (2, 0)]⟩ 1).lastRestart.map Prod.fst ∧
    (∀ a ∈ (runWatchdog 20 30 true [25, 60] (handleStreamStop ⟨[1, 2], [1, 2], [1, 2], [1, 2],
        [(1, 0), (2, 0)], [(1, false), (2, false)], [(1, 0), (2, 0)]⟩ 1)).2, a.1 ≠ 1) ∧
    ¬ 1 ∈ (runWatchdog 20 30 true [25, 60] (handleStreamStop ⟨[1, 2], [1, 2], [1, 2], [1, 2],
        [(1, 0), (2, 0)], [(1, false), (2, false)], [(1, 0), (2, 0)]⟩ 1)).1.lastFrame.map
        Prod.fst :=
  C10_stream_stop_permanently_drops_display
    ⟨[1, 2], [1, 2], [1, 2], [1, 2], [(1, 0), (2, 0)],
      [(1, false), (2, false)], [(1, 0), (2, 0)]⟩ 1 20 30 true [25, 60]

/-- The restore step never changes the violation slot. -/
lemma restore_fst_violation (hc : Bool) (st : TargetPolicyState) :
    (restoreIntervalStep hc st).1.violation = st.violation := by
  cases hc <;> cases ht : st.tightened <;> simp [restoreIntervalStep, ht]

/-- The restore step never changes the last-label slot. -/
lemma restore_fst_lastLabel (hc : Bool) (st : TargetPolicyState) :
    (restoreIntervalStep hc st).1.lastLabel = st.lastLabel := by
  cases hc <;> cases ht : st.tightened <;> simp [restoreIntervalStep, ht]

/-- The restore step always leaves the tightened flag clear. -/
lemma restore_fst_tightened (hc : Bool) (st : TargetPolicyState) :
    (restoreIntervalStep hc st).1.tightened = false := by
  cases hc <;> cases ht : st.tightened <;> simp [restoreIntervalStep, ht]

/-- The restore step calls the controller exactly when one is wired and
the flag was set. -/
lemma restore_snd_eq (hc : Bool) (st : TargetPolicyState) :
    (restoreIntervalStep hc st).2 =
      if hc = true ∧ st.tightened = true then [PolicyAction.restore] else [] := by
  cases hc <;> cases ht : st.tightened <;> simp [restoreIntervalStep, ht]

/-- Everything the restore step emits is a restore request. -/
lemma restore_snd_sub (hc : Bool) (st : TargetPolicyState) :
    ∀ a ∈ (restoreIntervalStep hc st).2, a = PolicyAction.restore := by
  rw [restore_snd_eq]
  intro a ha
  split at ha
  · exact List.mem_singleton.mp ha
  · exact absurd ha (List.not_mem_nil a)

/-- C2: a parseable result whose label is not "entertainment" (after
lowercasing) or whose confidence is below 0.6 clears any existing
violation for the target and restores its cadence to base (flag cleared,
controller restore issued exactly when a tighten was outstanding); an
unparseable result changes no policy state at all. -/
theorem C2_benign_clears_unparseable_ignored :
    ∀ (cfg : PolicyConfig) (hc : Bool) (st : TargetPolicyState) (text : String)
      (now : PyDateTime),
      (∀ (j : Json) (l : String) (c : ℚ),
        parseResult text = some j → extractLabelConf j = some (l, c) →
        (l ≠ "entertainment" ∨ c < 3 / 5) →
        (handleFrameResult cfg hc st text now).1.violation = none ∧
        (st.violation.isSome = true →
          (handleFrameResult cfg hc st text now).1.tightened = false ∧
          (hc = true →
            (PolicyAction.restore ∈ (handleFrameResult cfg hc st text now).2 ↔
              st.tightened = true)))) ∧
      (parseResult text = none → handleFrameResult cfg hc st text now = (st, [])) := by
  intro cfg hc st text now
  constructor
  · intro j l c hp he hcond
    rcases hv : st.violation with _ | v
    · have hres : handleFrameResult cfg hc st text now =
          ({ st with lastLabel := none }, []) := by
        simp [handleFrameResult, hp, he, if_pos hcond, hv]
      rw [hres]
      refine ⟨hv, ?_⟩
      intro hs
      exact absurd hs (by simp [hv])
    · have hres : handleFrameResult cfg hc st text now =
          ({ (restoreIntervalStep hc
              { st with lastLabel := some (l, c), violation := none }).1
            with lastLabel := none },
           (restoreIntervalStep hc
              { st with lastLabel := some (l, c), violation := none }).2) := by
        simp [handleFrameResult, hp, he, if_pos hcond, hv]
      rw [hres]
      refine ⟨?_, ?_⟩
      · show (restoreIntervalStep hc _).1.violation = none
        rw [restore_fst_violation]
      · intro _
        refine ⟨?_, ?_⟩
        · show (restoreIntervalStep hc _).1.tightened = false
          rw [restore_fst_tightened]
        · intro hctrue
          rw [restore_snd_eq]
          subst hctrue
          by_cases ht : st.tightened = true <;> simp [ht]
  · intro hp
    simp [handleFrameResult, hp]

/-- C2 witness: a work classification with confidence 0.9 clears an
active, tightened violation and issues the controller restore; garbage
leaves the state untouched. -/
theorem C2_benign_clears_unparseable_ignored_witness :
    ((handleFrameResult ⟨61200, 30, 10, some 5, 61200, 300⟩ true
        ⟨some ⟨⟨0, 36000⟩, ⟨0, 36000⟩, true⟩, some ("entertainment", 4 / 5), true⟩
        "\x7b\"label\": \"work\", \"confidence\": 0.9\x7d" ⟨0, 36010⟩).1.violation = none ∧
      ((some (⟨⟨0, 36000⟩, ⟨0, 36000⟩, true⟩ : ViolationState)).isSome = true →
        (handleFrameResult ⟨61200, 30, 10, some 5, 61200, 300⟩ true
          ⟨some ⟨⟨0, 36000⟩, ⟨0, 36000⟩, true⟩, some ("entertainment", 4 / 5), true⟩
          "\x7b\"label\": \"work\", \"confidence\": 0.9\x7d" ⟨0, 36010⟩).1.tightened = false ∧
        (true = true →
          (PolicyAction.restore ∈ (handleFrameResult ⟨61200, 30, 10, some 5, 61200, 300⟩ true
            ⟨some ⟨⟨0, 36000⟩, ⟨0, 36000⟩, true⟩, some ("entertainment", 4 / 5), true⟩
            "\x7b\"label\": \"work\", \"confidence\": 0.9\x7d" ⟨0, 36010⟩).2 ↔
            true = true)))) ∧
    handleFrameResult ⟨61200, 30, 10, some 5, 61200, 300⟩ true
        ⟨some ⟨⟨0, 36000⟩, ⟨0, 36000⟩, true⟩, some ("entertainment", 4 / 5), true⟩
        "garbage" ⟨0, 36010⟩ =
      (⟨some ⟨⟨0, 36000⟩, ⟨0, 36000⟩, true⟩, some ("entertainment", 4 / 5), true⟩, []) :=
  ⟨(C2_benign_clears_unparseable_ignored ⟨61200, 30, 10, some 5, 61200, 300⟩ true
      ⟨some ⟨⟨0, 36000⟩, ⟨0, 36000⟩, true⟩, some ("entertainment", 4 / 5), true⟩
      "\x7b\"label\": \"work\", \"confidence\": 0.9\x7d" ⟨0, 36010⟩).1
      (Json.obj [("label", Json.str "work"), ("confidence", Json.num (9 / 10))])
      "work" (9 / 10) (by with_unfolding_all rfl) (by with_unfolding_all rfl)
      (Or.inl (by decide)),
   (C2_benign_clears_unparseable_ignored ⟨61200, 30, 10, some 5, 61200, 300⟩ true
      ⟨some ⟨⟨0, 36000⟩, ⟨0, 36000⟩, true⟩, some ("entertainment", 4 / 5), true⟩
      "garbage" ⟨0, 36010⟩).2 (by with_unfolding_all rfl)⟩

/-- C1: with an active violation, on a qualifying classification (label
"entertainment" after lowercasing, confidence at least 0.6) outside the
off-hours grace window: the screen is locked, the violation cleared and
the cadence restored exactly when the grace period has elapsed since
`first_detected`; below the grace period no lock occurs and a reminder is
sent, updating only `last_notified`, exactly when the reminder interval
has elapsed since `last_notified`. -/
theorem C1_active_violation_lock_and_reminder :
    ∀ (cfg : PolicyConfig) (hc : Bool) (st : TargetPolicyState) (text : String)
      (now : PyDateTime) (j : Json) (c : ℚ) (v : ViolationState),
      parseResult text = some j → extractLabelConf j = some ("entertainment", c) →
      3 / 5 ≤ c → withinOffHoursGrace cfg now = false → st.violation = some v →
      (cfg.violationGrace ≤ dtSub now v.firstDetected →
        PolicyAction.lock ∈ (handleFrameResult cfg hc st text now).2 ∧
        (handleFrameResult cfg hc st text now).1.violation = none ∧
        (handleFrameResult cfg hc st text now).1.tightened = false ∧
        (hc = true →
          (PolicyAction.restore ∈ (handleFrameResult cfg hc st text now).2 ↔
            st.tightened = true))) ∧
      (dtSub now v.firstDetected < cfg.violationGrace →
        ¬ PolicyAction.lock ∈ (handleFrameResult cfg hc st text now).2 ∧
        (cfg.reminderInterval ≤ dtSub now v.lastNotified →
          (handleFrameResult cfg hc st text now).1.violation =
            some { v with lastNotified := now } ∧
          PolicyAction.notify "Entertainment still detected; lock imminent" ∈
            (handleFrameResult cfg hc st text now).2) ∧
        (dtSub now v.lastNotified < cfg.reminderInterval →
          (handleFrameResult cfg hc st text now).1.violation = some v ∧
          (handleFrameResult cfg hc st text now).2 = [])) := by
  intro cfg hc st text now j c v hp he hconf hoff hv
  have hcnl : ¬ c < 3 / 5 := not_lt.mpr hconf
  constructor
  · intro hg
    have hres : handleFrameResult cfg hc st text now =
        ((restoreIntervalStep hc
            { st with lastLabel := some ("entertainment", c), violation := none }).1,
         PolicyAction.lock :: (restoreIntervalStep hc
            { st with lastLabel := some ("entertainment", c), violation := none }).2) := by
      simp [handleFrameResult, hp, he, hcnl, hoff, hv, if_pos hg]
    rw [hres]
    refine ⟨List.mem_cons_self _ _, ?_, ?_, ?_⟩
    · rw [restore_fst_violation]
    · rw [restore_fst_tightened]
    · intro hctrue
      subst hctrue
      rw [restore_snd_eq]
      by_cases ht : st.tightened = true <;> simp [ht]
  · intro hg
    have hgn : ¬ cfg.violationGrace ≤ dtSub now v.firstDetected := not_le.mpr hg
    by_cases hr : cfg.reminderInterval ≤ dtSub now v.lastNotified
    · have hres : handleFrameResult cfg hc st text now =
          ({ st with
              lastLabel := some ("entertainment", c),
              violation := some { v with lastNotified := now } },
           [PolicyAction.notify "Entertainment still detected; lock imminent"]) := by
        simp [handleFrameResult, hp, he, hcnl, hoff, hv, if_neg hgn, if_pos hr]
      rw [hres]
      refine ⟨by simp, ?_, ?_⟩
      · intro _
        exact ⟨rfl, List.mem_singleton_self _⟩
      · intro hrn
        exact absurd hr (not_le.mpr hrn)
    · have hres : handleFrameResult cfg hc st text now =
          ({ st with lastLabel := some ("entertainment", c) }, []) := by
        simp [handleFrameResult, hp, he, hcnl, hoff, hv, if_neg hgn, if_neg hr]
      rw [hres]
      refine ⟨by simp, ?_, ?_⟩
      · intro hrc
        exact absurd hrc hr
      · intro _
        exact ⟨hv, rfl⟩

/-- C1 witness: an entertainment classification at confidence 0.8 against
a violation first detected 50 s ago with a 30 s grace locks the screen,
clears the violation, and (with a tightened cadence outstanding) issues
the controller restore. -/
theorem C1_active_violation_lock_and_reminder_witness :
    PolicyAction.lock ∈ (handleFrameResult ⟨61200, 30, 10, some 5, 61200, 300⟩ true
      ⟨some ⟨⟨0, 35950⟩, ⟨0, 35950⟩, true⟩, some ("entertainment", 4 / 5), true⟩
      "\x7b\"label\": \"entertainment\", \"confidence\": 0.8\x7d" ⟨0, 36000⟩).2 ∧
    (handleFrameResult ⟨61200, 30, 10, some 5, 61200, 300⟩ true
      ⟨some ⟨⟨0, 35950⟩, ⟨0, 35950⟩, true⟩, some ("entertainment", 4 / 5), true⟩
      "\x7b\"label\": \"entertainment\", \"confidence\": 0.8\x7d" ⟨0, 36000⟩).1.violation = none ∧
    (handleFrameResult ⟨61200, 30, 10, some 5, 61200, 300⟩ true
      ⟨some ⟨⟨0, 35950⟩, ⟨0, 35950⟩, true⟩, some ("entertainment", 4 / 5), true⟩
      "\x7b\"label\": \"entertainment\", \"confidence\": 0.8\x7d" ⟨0, 36000⟩).1.tightened = false ∧
    (true = true →
      (PolicyAction.restore ∈ (handleFrameResult ⟨61200, 30, 10, some 5, 61200, 300⟩ true
        ⟨some ⟨⟨0, 35950⟩, ⟨0, 35950⟩, true⟩, some ("entertainment", 4 / 5), true⟩
        "\x7b\"label\": \"entertainment\", \"confidence\": 0.8\x7d" ⟨0, 36000⟩).2 ↔
        true = true)) :=
  (C1_active_violation_lock_and_reminder ⟨61200, 30, 10, some 5, 61200, 300⟩ true
      ⟨some ⟨⟨0, 35950⟩, ⟨0, 35950⟩, true⟩, some ("entertainment", 4 / 5), true⟩
      "\x7b\"label\": \"entertainment\", \"confidence\": 0.8\x7d" ⟨0, 36000⟩
      (Json.obj [("label", Json.str "entertainment"), ("confidence", Json.num (4 / 5))])
      (4 / 5) ⟨⟨0, 35950⟩, ⟨0, 35950⟩, true⟩
      (by with_unfolding_all rfl) (by with_unfolding_all rfl) (by norm_num)
      (by with_unfolding_all rfl) rfl).1
    (by norm_num [dtSub])

/-- The restore step emits no lock, notification, or tighten request. -/
lemma restore_snd_no_enforcement (hc : Bool) (st : TargetPolicyState) :
    ¬ PolicyAction.lock ∈ (restoreIntervalStep hc st).2 ∧
    (∀ m, ¬ PolicyAction.notify m ∈ (restoreIntervalStep hc st).2) ∧
    (∀ q r, ¬ PolicyAction.notifyIdle q r ∈ (restoreIntervalStep hc st).2) ∧
    (∀ q, ¬ PolicyAction.tighten q ∈ (restoreIntervalStep hc st).2) := by
  refine ⟨?_, ?_, ?_, ?_⟩
  · intro hmem
    exact PolicyAction.noConfusion (restore_snd_sub hc st _ hmem)
  · intro m hmem
    exact PolicyAction.noConfusion (restore_snd_sub hc st _ hmem)
  · intro q r hmem
    exact PolicyAction.noConfusion (restore_snd_sub hc st _ hmem)
  · intro q hmem
    exact PolicyAction.noConfusion (restore_snd_sub hc st _ hmem)

/-- C3: while `now` lies within the half-open off-hours window
`[off_hours_start, off_hours_start + off_hours_grace)`, enforcement is
fully suppressed on the classification and idle paths: no lock,
notification, or cadence-tighten request is emitted, no new violation is
created, a parsed signal clears any existing violation (restoring its
cadence), and the idle path always leaves the violation slot empty. -/
theorem C3_off_hours_full_suppression :
    ∀ (cfg : PolicyConfig) (now : PyDateTime),
      cfg.offHoursStart ≤ now.timeOfDay →
      now.timeOfDay - cfg.offHoursStart < cfg.offHoursGrace →
      ∀ (hc : Bool) (st : TargetPolicyState),
      (∀ (text : String),
        ¬ PolicyAction.lock ∈ (handleFrameResult cfg hc st text now).2 ∧
        (∀ m, ¬ PolicyAction.notify m ∈ (handleFrameResult cfg hc st text now).2) ∧
        (∀ q r, ¬ PolicyAction.notifyIdle q r ∈ (handleFrameResult cfg hc st text now).2) ∧
        (∀ q, ¬ PolicyAction.tighten q ∈ (handleFrameResult cfg hc st text now).2) ∧
        (st.violation = none → (handleFrameResult cfg hc st text now).1.violation = none) ∧
        (∀ (j : Json) (l : String) (c : ℚ),
          parseResult text = some j → extractLabelConf j = some (l, c) →
          (handleFrameResult cfg hc st text now).1.violation = none ∧
          (st.violation.isSome = true →
            (handleFrameResult cfg hc st text now).1.tightened = false))) ∧
      (∀ (idleSeconds : ℚ),
        ¬ PolicyAction.lock ∈ (handleStreamIdle cfg hc st idleSeconds now).2 ∧
        (∀ m, ¬ PolicyAction.notify m ∈ (handleStreamIdle cfg hc st idleSeconds now).2) ∧
        (∀ q r, ¬ PolicyAction.notifyIdle q r ∈ (handleStreamIdle cfg hc st idleSeconds now).2) ∧
        (handleStreamIdle cfg hc st idleSeconds now).1.violation = none ∧
        (st.violation.isSome = true →
          (handleStreamIdle cfg hc st idleSeconds now).1.tightened = false)) := by
  intro cfg now h1 h2 hc st
  have hoff : withinOffHoursGrace cfg now = true := by
    simp [withinOffHoursGrace, not_lt.mpr h1, h2.le]
  constructor
  · intro text
    rcases hp : parseResult text with _ | j
    · have hres : handleFrameResult cfg hc st text now = (st, []) := by
        simp [handleFrameResult, hp]
      rw [hres]
      refine ⟨by simp, by simp, by simp, by simp, fun h => h, ?_⟩
      intro j l c hp' _
      exact Option.noConfusion hp'
    · rcases he : extractLabelConf j with _ | lc
      · have hres : handleFrameResult cfg hc st text now = (st, []) := by
          simp [handleFrameResult, hp, he]
        rw [hres]
        refine ⟨by simp, by simp, by simp, by simp, fun h => h, ?_⟩
        intro j' l c hp' he'
        obtain rfl : j = j' := by injection hp'
        rw [he] at he'
        exact Option.noConfusion he'
      · rcases lc with ⟨l, c⟩
        by_cases hcond : (l ≠ "entertainment" ∨ c < 3 / 5)
        · rcases hv : st.violation with _ | v
          · have hres : handleFrameResult cfg hc st text now =
                ({ st with lastLabel := none }, []) := by
              simp [handleFrameResult, hp, he, if_pos hcond, hv]
            rw [hres]
            refine ⟨by simp, by simp, by simp, by simp, fun _ => hv, ?_⟩
            intro j' l' c' _ _
            refine ⟨hv, ?_⟩
            intro hs
            exact absurd hs (by simp [hv])
          · have hres : handleFrameResult cfg hc st text now =
                ({ (restoreIntervalStep hc
                    { st with lastLabel := some (l, c), violation := none }).1
                  with lastLabel := none },
                 (restoreIntervalStep hc
                    { st with lastLabel := some (l, c), violation := none }).2) := by
              simp [handleFrameResult, hp, he, if_pos hcond, hv]
            rw [hres]
            obtain ⟨hn1, hn2, hn3, hn4⟩ := restore_snd_no_enforcement hc
              { st with lastLabel := some (l, c), violation := none }
            refine ⟨hn1, hn2, hn3, hn4, ?_, ?_⟩
            · intro h0
              exact Option.noConfusion h0
            · intro j' l' c' _ _
              constructor
              · show (restoreIntervalStep hc _).1.violation = none
                rw [restore_fst_violation]
              · intro _
                show (restoreIntervalStep hc _).1.tightened = false
                rw [restore_fst_tightened]
        · have hl : l = "entertainment" := not_not.mp (not_or.mp hcond).1
          have hcl : ¬ c < 3 / 5 := (not_or.mp hcond).2
          subst hl
          rcases hv : st.violation with _ | v
          · have hres : handleFrameResult cfg hc st text now =
                ({ st with lastLabel := some ("entertainment", c) }, []) := by
              simp [handleFrameResult, hp, he, hcl, hoff, hv]
            rw [hres]
            refine ⟨by simp, by simp, by simp, by simp, fun _ => hv, ?_⟩
            intro j' l' c' _ _
            refine ⟨hv, ?_⟩
            intro hs
            exact absurd hs (by simp [hv])
          · have hres : handleFrameResult cfg hc st text now =
                restoreIntervalStep hc
                  { st with lastLabel := some ("entertainment", c), violation := none } := by
              simp [handleFrameResult, hp, he, hcl, hoff, hv]
            rw [hres]
            obtain ⟨hn1, hn2, hn3, hn4⟩ := restore_snd_no_enforcement hc
              { st with lastLabel := some ("entertainment", c), violation := none }
            refine ⟨hn1, hn2, hn3, hn4, ?_, ?_⟩
            · intro h0
              exact Option.noConfusion h0
            · intro j' l' c' _ _
              exact ⟨by rw [restore_fst_violation], fun _ => by rw [restore_fst_tightened]⟩
  · intro idleSeconds
    rcases hv : st.violation with _ | v
    · have hres : handleStreamIdle cfg hc st idleSeconds now = (st, []) := by
        simp [handleStreamIdle, hv]
      rw [hres]
      refine ⟨by simp, by simp, by simp, hv, ?_⟩
      intro hs
      exact absurd hs (by simp [hv])
    · have hres : handleStreamIdle cfg hc st idleSeconds now =
          restoreIntervalStep hc { st with violation := none } := by
        simp [handleStreamIdle, hv, hoff]
      rw [hres]
      obtain ⟨hn1, hn2, hn3, _⟩ := restore_snd_no_enforcement hc
        { st with violation := none }
      exact ⟨hn1, hn2, hn3, by rw [restore_fst_violation], fun _ => by
        rw [restore_fst_tightened]⟩

/-- C3 witness: at 100 s into the off-hours window, an entertainment
classification at confidence 0.8 against an active violation produces no
lock, and an idle signal leaves the violation slot empty. -/
theorem C3_off_hours_full_suppression_witness :
    ¬ PolicyAction.lock ∈ (handleFrameResult ⟨61200, 30, 10, some 5, 61200, 300⟩ true
      ⟨some ⟨⟨0, 61000⟩, ⟨0, 61000⟩, true⟩, some ("entertainment", 4 / 5), true⟩
      "\x7b\"label\": \"entertainment\", \"confidence\": 0.8\x7d" ⟨0, 61300⟩).2 ∧
    (handleStreamIdle ⟨61200, 30, 10, some 5, 61200, 300⟩ true
      ⟨some ⟨⟨0, 61000⟩, ⟨0, 61000⟩, true⟩, some ("entertainment", 4 / 5), true⟩
      25 ⟨0, 61300⟩).1.violation = none :=
  ⟨((C3_off_hours_full_suppression ⟨61200, 30, 10, some 5, 61200, 300⟩ ⟨0, 61300⟩
      (by norm_num) (by norm_num) true
      ⟨some ⟨⟨0, 61000⟩, ⟨0, 61000⟩, true⟩, some ("entertainment", 4 / 5), true⟩).1
      "\x7b\"label\": \"entertainment\", \"confidence\": 0.8\x7d").1,
   ((C3_off_hours_full_suppression ⟨61200, 30, 10, some 5, 61200, 300⟩ ⟨0, 61300⟩
      (by norm_num) (by norm_num) true
      ⟨some ⟨⟨0, 61000⟩, ⟨0, 61000⟩, true⟩, some ("entertainment", 4 / 5), true⟩).2
      25).2.2.2.1⟩

end ScreenTimer
